import Mathlib

/-!
Verification of the `getBlock` RPC method of a Solana JSON-RPC client
(`rpc/getBlock.go`): the request builder, the encoding validation, the
transport interaction and the error taxonomy of `GetBlockWithOpts` and
`GetBlock`.

The Go code is shallowly embedded: the options bundle `GetBlockOpts` and
the result record `GetBlockResult` become Lean structures; the Go map `M`
(`map[string]interface{}`) used for the options object becomes an
association list with replace-on-insert semantics; the JSON-RPC transport
(`cl.rpcClient.CallForInto`) is an explicit function parameter, and the
model additionally records the list of transport calls made so that
"no network call happens" is statable.  Errors become the inductive
`GoError`, whose constructors mirror the three error values the Go code
can return.
-/

namespace SolanaGetBlock

/-- Go `solana.EncodingType` (a string type in the `solana` package). -/
abbrev EncodingType := String

/-- Go `rpc.CommitmentType` (a string type, declared outside this file). -/
abbrev CommitmentType := String

/-- Go `rpc.TransactionDetailsType`, a string type. -/
abbrev TransactionDetailsType := String

/-- Go constant `TransactionDetailsFull`. -/
def TransactionDetailsFull : TransactionDetailsType := "full"

/-- Go constant `TransactionDetailsSignatures`. -/
def TransactionDetailsSignatures : TransactionDetailsType := "signatures"

/-- Go constant `TransactionDetailsNone`. -/
def TransactionDetailsNone : TransactionDetailsType := "none"

/-- Modelled from the spec: the `solana` package constant `EncodingJSON`,
declared outside `src/`; the spec and the Go doc comments give its value
as the default encoding string `json`. -/
def EncodingJSON : EncodingType := "json"

/-- Modelled from the spec: the `solana` package constant
`EncodingJSONParsed`, value `jsonParsed`. -/
def EncodingJSONParsed : EncodingType := "jsonParsed"

/-- Modelled from the spec: the `solana` package constant
`EncodingBase58`, value `base58`. -/
def EncodingBase58 : EncodingType := "base58"

/-- Modelled from the spec: the `solana` package constant
`EncodingBase64`, value `base64`. -/
def EncodingBase64 : EncodingType := "base64"

/-- Modelled from the spec: `solana.IsAnyOfEncodingType(candidate,
candidates...)`, declared outside `src/`; it reports whether `candidate`
is one of the listed encodings (membership in the valid set, per spec
section 4.1). -/
def isAnyOfEncodingType (candidate : EncodingType)
    (candidates : List EncodingType) : Bool :=
  candidates.contains candidate

/-- Go struct `GetBlockOpts` (`rpc/getBlock.go`).  `Encoding`,
`TransactionDetails` and `Commitment` are Go string fields whose zero
value `""` means "not provided"; `Rewards` is a `*bool`, so `none`
models the nil pointer. -/
structure GetBlockOpts where
  Encoding : EncodingType := ""
  TransactionDetails : TransactionDetailsType := ""
  Rewards : Option Bool := none
  Commitment : CommitmentType := ""
  deriving DecidableEq, Repr

/-- Stand-in for `solana.Hash` (external codec type, out of scope). -/
abbrev Hash := String

/-- Stand-in for `solana.Signature` (external codec type, out of scope). -/
abbrev Signature := String

/-- Stand-in for `rpc.TransactionWithMeta` (external, out of scope). -/
structure TransactionWithMeta where
  raw : String := ""
  deriving DecidableEq, Repr

/-- Stand-in for `rpc.BlockReward` (external, out of scope). -/
structure BlockReward where
  raw : String := ""
  deriving DecidableEq, Repr

/-- Go struct `GetBlockResult` (`rpc/getBlock.go`).  `bin.Uint64` fields
become `Nat`, `bin.Int64` becomes `Int`, pointer fields become
`Option`. -/
structure GetBlockResult where
  Blockhash : Hash
  PreviousBlockhash : Hash
  ParentSlot : Nat
  Transactions : List TransactionWithMeta := []
  Signatures : List Signature := []
  Rewards : List BlockReward := []
  BlockTime : Option Int := none
  BlockHeight : Option Nat := none
  deriving DecidableEq, Repr

/-- A JSON-able value stored in the options object: the Go code inserts
string-typed values (`encoding`, `transactionDetails`, `commitment`) and
a boolean (`rewards`, via a non-nil `*bool`). -/
inductive JVal where
  | str (s : String)
  | bool (b : Bool)
  deriving DecidableEq, Repr

/-- Go type `M = map[string]interface{}`, modelled as an association
list whose insert replaces an existing key (Go map assignment
semantics). -/
abbrev M := List (String × JVal)

/-- Go map assignment `m[k] = v`: replace the binding of `k` if present,
otherwise append it. -/
def insertM (m : M) (k : String) (v : JVal) : M :=
  match m with
  | [] => [(k, v)]
  | (k', v') :: rest =>
      if k' = k then (k, v) :: rest else (k', v') :: insertM rest k v

/-- Go map lookup `m[k]`. -/
def lookupM (m : M) (k : String) : Option JVal :=
  match m with
  | [] => none
  | (k', v) :: rest => if k' = k then some v else lookupM rest k

/-- A positional JSON-RPC parameter: the slot number or the options
object. -/
inductive Param where
  | nat (n : Nat)
  | obj (m : M)
  deriving DecidableEq, Repr

/-- One invocation of the transport: method name and positional
parameters, as handed to `cl.rpcClient.CallForInto`. -/
structure RpcCall where
  method : String
  params : List Param
  deriving DecidableEq, Repr

/-- Opaque transport-level error payload (whatever `CallForInto`
returns as its `error`). -/
abbrev TransportError := String

/-- The transport capability `CallForInto`: given a call it either
fails with an opaque error, or succeeds and decodes into a possibly-nil
`*GetBlockResult`. -/
abbrev Transport := RpcCall → Except TransportError (Option GetBlockResult)

/-- The error values `GetBlockWithOpts` can return.
`unsupportedEncoding` is the local `fmt.Errorf("provided encoding is
not supported: %s", ...)`; `transportErr` wraps the opaque error
propagated from `CallForInto`; `notConfirmed` is the sentinel
`ErrNotConfirmed`.  Modelled from the spec: `ErrNotConfirmed` is a
distinct sentinel error value declared outside `src/` (spec section 7:
`BlockNotConfirmed`, a condition distinct from the other two). -/
inductive GoError where
  | unsupportedEncoding (enc : EncodingType)
  | transportErr (e : TransportError)
  | notConfirmed
  deriving DecidableEq, Repr

/-- The valid encodings listed at the `IsAnyOfEncodingType` call site in
`GetBlockWithOpts`. -/
def validEncodings : List EncodingType :=
  [EncodingJSON, EncodingJSONParsed, EncodingBase58, EncodingBase64]

/-- The options-object construction of `GetBlockWithOpts`
(`rpc/getBlock.go` lines 74-102): start from
`obj := M{"encoding": solana.EncodingJSON}`, then, when `opts` is
non-nil, conditionally insert `transactionDetails`, `rewards` and
`commitment`, and finally validate and insert `encoding`.  An invalid
non-empty encoding aborts with the `UnsupportedEncoding` error before
any transport interaction. -/
def buildObj (opts : Option GetBlockOpts) : Except GoError M :=
  let obj : M := [("encoding", JVal.str EncodingJSON)]
  match opts with
  | none => Except.ok obj
  | some o =>
      let obj := if o.TransactionDetails ≠ "" then
          insertM obj "transactionDetails" (JVal.str o.TransactionDetails)
        else obj
      let obj := match o.Rewards with
        | some b => insertM obj "rewards" (JVal.bool b)
        | none => obj
      let obj := if o.Commitment ≠ "" then
          insertM obj "commitment" (JVal.str o.Commitment)
        else obj
      if o.Encoding ≠ "" then
        if !isAnyOfEncodingType o.Encoding validEncodings then
          Except.error (GoError.unsupportedEncoding o.Encoding)
        else
          Except.ok (insertM obj "encoding" (JVal.str o.Encoding))
      else
        Except.ok obj

/-- `params := []interface{}{slot, obj}` (`rpc/getBlock.go` line 103):
the positional parameter list of the request, or the builder's error. -/
def buildParams (slot : Nat) (opts : Option GetBlockOpts) :
    Except GoError (List Param) :=
  match buildObj opts with
  | Except.error e => Except.error e
  | Except.ok obj => Except.ok [Param.nat slot, Param.obj obj]

/-- The full observable outcome of one `GetBlockWithOpts` invocation:
the returned `*GetBlockResult`, the returned `error`, and the list of
transport calls it made. -/
structure RpcOutcome where
  out : Option GetBlockResult
  err : Option GoError
  calls : List RpcCall
  deriving Repr

/-- `Client.GetBlockWithOpts` (`rpc/getBlock.go` lines 68-115): build
the parameter list (failing locally on an unsupported encoding, with no
transport call); otherwise call `getBlock` on the transport; propagate a
transport error unchanged; map a nil decoded result to
`ErrNotConfirmed`; otherwise return the decoded block. -/
def getBlockWithOpts (t : Transport) (slot : Nat)
    (opts : Option GetBlockOpts) : RpcOutcome :=
  match buildParams slot opts with
  | Except.error e => ⟨none, some e, []⟩
  | Except.ok ps =>
      let call : RpcCall := ⟨"getBlock", ps⟩
      match t call with
      | Except.error e => ⟨none, some (GoError.transportErr e), [call]⟩
      | Except.ok none => ⟨none, some GoError.notConfirmed, [call]⟩
      | Except.ok (some res) => ⟨some res, none, [call]⟩

/-- `Client.GetBlock` (`rpc/getBlock.go` lines 53-62): delegates to
`GetBlockWithOpts` with nil options. -/
def getBlock (t : Transport) (slot : Nat) : RpcOutcome :=
  getBlockWithOpts t slot none

/-- A transport that always succeeds with a nil decoded result (node
signals the block is not confirmed). -/
def transportOkNone : Transport := fun _ => Except.ok none

/-- A sample decoded block, used as a concrete transport response. -/
def sampleBlock : GetBlockResult :=
  { Blockhash := "BlkHash",
    PreviousBlockhash := "11111111111111111111111111111111",
    ParentSlot := 4 }

/-- A transport that always succeeds with `sampleBlock`. -/
def transportOkBlock : Transport := fun _ => Except.ok (some sampleBlock)

/-- A transport that always fails with an opaque error. -/
def transportFail : Transport := fun _ => Except.error "connection refused"

/-- An options bundle that explicitly disables rewards
(`Rewards = &false`), all other fields unset. -/
def rewardsFalseOpts : GetBlockOpts := { Rewards := some false }

/-- An options bundle with locally-unvalidated garbage in the fields the
code does not check. -/
def passthroughOpts : GetBlockOpts :=
  { TransactionDetails := "bogus-level", Commitment := "bogus-commitment" }

/-! ### Helper lemmas -/

/-- Explicit form of the options object built for a non-nil `opts`, used
to characterize `buildObj` in proofs. -/
def objOf (o : GetBlockOpts) : M :=
  [("encoding",
      JVal.str (if o.Encoding = "" then EncodingJSON else o.Encoding))]
  ++ (if o.TransactionDetails = "" then []
      else [("transactionDetails", JVal.str o.TransactionDetails)])
  ++ (match o.Rewards with
      | none => []
      | some b => [("rewards", JVal.bool b)])
  ++ (if o.Commitment = "" then []
      else [("commitment", JVal.str o.Commitment)])

theorem isAnyOf_iff_mem (c : EncodingType) (l : List EncodingType) :
    isAnyOfEncodingType c l = true ↔ c ∈ l := by
  simp [isAnyOfEncodingType]

theorem buildObj_none_eq :
    buildObj none = Except.ok [("encoding", JVal.str EncodingJSON)] := rfl

theorem buildObj_some_eq (o : GetBlockOpts) :
    buildObj (some o) =
      if o.Encoding ≠ "" ∧ o.Encoding ∉ validEncodings then
        Except.error (GoError.unsupportedEncoding o.Encoding)
      else Except.ok (objOf o) := by
  by_cases he : o.Encoding = "" <;>
    by_cases ht : o.TransactionDetails = "" <;>
      rcases hr : o.Rewards with _ | b <;>
        by_cases hc : o.Commitment = "" <;>
          by_cases hm : o.Encoding ∈ validEncodings <;>
            simp [buildObj, objOf, insertM, isAnyOf_iff_mem, he, ht, hr,
              hc, hm]

theorem lookupM_objOf_encoding (o : GetBlockOpts) :
    lookupM (objOf o) "encoding" =
      some (JVal.str (if o.Encoding = "" then EncodingJSON
        else o.Encoding)) := by
  simp [objOf, lookupM]

theorem lookupM_objOf_transactionDetails (o : GetBlockOpts) :
    lookupM (objOf o) "transactionDetails" =
      if o.TransactionDetails = "" then none
      else some (JVal.str o.TransactionDetails) := by
  by_cases ht : o.TransactionDetails = "" <;>
    rcases hr : o.Rewards with _ | b <;>
      by_cases hc : o.Commitment = "" <;>
        simp [objOf, lookupM, ht, hr, hc]

theorem lookupM_objOf_rewards (o : GetBlockOpts) :
    lookupM (objOf o) "rewards" = o.Rewards.map JVal.bool := by
  by_cases ht : o.TransactionDetails = "" <;>
    rcases hr : o.Rewards with _ | b <;>
      by_cases hc : o.Commitment = "" <;>
        simp [objOf, lookupM, ht, hr, hc]

theorem lookupM_objOf_commitment (o : GetBlockOpts) :
    lookupM (objOf o) "commitment" =
      if o.Commitment = "" then none
      else some (JVal.str o.Commitment) := by
  by_cases ht : o.TransactionDetails = "" <;>
    rcases hr : o.Rewards with _ | b <;>
      by_cases hc : o.Commitment = "" <;>
        simp [objOf, lookupM, ht, hr, hc]

theorem getBlockWithOpts_out_err (t : Transport) (slot : Nat)
    (opts : Option GetBlockOpts) :
    ((getBlockWithOpts t slot opts).out = none ∧
        (getBlockWithOpts t slot opts).err ≠ none) ∨
      ((getBlockWithOpts t slot opts).out ≠ none ∧
        (getBlockWithOpts t slot opts).err = none) := by
  unfold getBlockWithOpts
  rcases buildParams slot opts with e | ps
  · simp
  · rcases ht : t ⟨"getBlock", ps⟩ with e | r
    · simp [ht]
    · rcases r with _ | res <;> simp [ht]

/-! ### Claims -/

/-- C1: for every options bundle whose encoding field is a non-empty
string outside the valid set, `getBlockWithOpts` fails with the
`unsupportedEncoding` error, returns no result, and makes no transport
call (its call list is empty). -/
theorem getBlockWithOpts_unsupportedEncoding_no_transport
    (t : Transport) (slot : Nat) (o : GetBlockOpts)
    (h1 : o.Encoding ≠ "") (h2 : o.Encoding ∉ validEncodings) :
    getBlockWithOpts t slot (some o) =
      ⟨none, some (GoError.unsupportedEncoding o.Encoding), []⟩ := by
  have hb : buildObj (some o)
      = Except.error (GoError.unsupportedEncoding o.Encoding) := by
    rw [buildObj_some_eq, if_pos ⟨h1, h2⟩]
  simp [getBlockWithOpts, buildParams, hb]

/-- Witness for C1 at encoding `xml`, slot 10: immediate failure, empty
call list, even against a transport that would have succeeded. -/
theorem getBlockWithOpts_unsupportedEncoding_no_transport_witness :
    (("xml" : EncodingType) ≠ "" ∧
      ("xml" : EncodingType) ∉ validEncodings) ∧
    getBlockWithOpts transportOkBlock 10 (some { Encoding := "xml" }) =
      ⟨none, some (GoError.unsupportedEncoding "xml"), []⟩ :=
  ⟨⟨by decide, by decide⟩,
    getBlockWithOpts_unsupportedEncoding_no_transport transportOkBlock 10
      { Encoding := "xml" } (by decide) (by decide)⟩

/-- C2: when the transport succeeds but decodes a nil result,
`getBlockWithOpts` returns the distinct `notConfirmed` error
(`ErrNotConfirmed`); moreover no invocation ever returns a nil result
together with a nil error. -/
theorem getBlockWithOpts_notConfirmed (t : Transport) (slot : Nat)
    (opts : Option GetBlockOpts) (ps : List Param)
    (h1 : buildParams slot opts = Except.ok ps)
    (h2 : t ⟨"getBlock", ps⟩ = Except.ok none) :
    getBlockWithOpts t slot opts =
        ⟨none, some GoError.notConfirmed, [⟨"getBlock", ps⟩]⟩ ∧
      ∀ (u : Transport) (s : Nat) (op : Option GetBlockOpts),
        ¬((getBlockWithOpts u s op).out = none ∧
          (getBlockWithOpts u s op).err = none) := by
  constructor
  · simp [getBlockWithOpts, h1, h2]
  · intro u s op hcontra
    rcases getBlockWithOpts_out_err u s op with ⟨_, h4⟩ | ⟨h3, _⟩
    · exact h4 hcontra.2
    · exact h3 hcontra.1

/-- Witness for C2 at slot 999999 with no options against a transport
that reports a nil (unconfirmed) block. -/
theorem getBlockWithOpts_notConfirmed_witness :
    (buildParams 999999 none =
        Except.ok [Param.nat 999999,
          Param.obj [("encoding", JVal.str "json")]] ∧
      transportOkNone ⟨"getBlock", [Param.nat 999999,
          Param.obj [("encoding", JVal.str "json")]]⟩ = Except.ok none) ∧
    getBlockWithOpts transportOkNone 999999 none =
      ⟨none, some GoError.notConfirmed,
        [⟨"getBlock", [Param.nat 999999,
          Param.obj [("encoding", JVal.str "json")]]⟩]⟩ :=
  ⟨⟨rfl, rfl⟩,
    (getBlockWithOpts_notConfirmed transportOkNone 999999 none
      [Param.nat 999999, Param.obj [("encoding", JVal.str "json")]]
      rfl rfl).1⟩

/-- C6: a transport-reported error is propagated to the caller unchanged
(the exact payload, wrapped in no interpretation), with a nil result and
exactly the one transport call made. -/
theorem getBlockWithOpts_transport_error_propagated (t : Transport)
    (slot : Nat) (opts : Option GetBlockOpts) (ps : List Param)
    (e : TransportError)
    (h1 : buildParams slot opts = Except.ok ps)
    (h2 : t ⟨"getBlock", ps⟩ = Except.error e) :
    getBlockWithOpts t slot opts =
      ⟨none, some (GoError.transportErr e), [⟨"getBlock", ps⟩]⟩ := by
  simp [getBlockWithOpts, h1, h2]

/-- Witness for C6 at slot 7 with no options against a failing
transport: the opaque payload comes back verbatim. -/
theorem getBlockWithOpts_transport_error_propagated_witness :
    (buildParams 7 none =
        Except.ok [Param.nat 7,
          Param.obj [("encoding", JVal.str "json")]] ∧
      transportFail ⟨"getBlock", [Param.nat 7,
          Param.obj [("encoding", JVal.str "json")]]⟩ =
        Except.error "connection refused") ∧
    getBlockWithOpts transportFail 7 none =
      ⟨none, some (GoError.transportErr "connection refused"),
        [⟨"getBlock", [Param.nat 7,
          Param.obj [("encoding", JVal.str "json")]]⟩]⟩ :=
  ⟨⟨rfl, rfl⟩,
    getBlockWithOpts_transport_error_propagated transportFail 7 none
      [Param.nat 7, Param.obj [("encoding", JVal.str "json")]]
      "connection refused" rfl rfl⟩

/-- C9: `getBlock` returns exactly the same outcome (result, error and
transport calls) as `getBlockWithOpts` with nil options. -/
theorem getBlock_eq_getBlockWithOpts_nil (t : Transport) (slot : Nat) :
    getBlock t slot = getBlockWithOpts t slot none := rfl

/-- C10: `getBlockWithOpts` never returns a non-nil result together
with a non-nil error: in every outcome the result is nil or the error
is nil. -/
theorem getBlockWithOpts_no_result_with_error (t : Transport)
    (slot : Nat) (opts : Option GetBlockOpts) :
    (getBlockWithOpts t slot opts).out = none ∨
      (getBlockWithOpts t slot opts).err = none := by
  rcases getBlockWithOpts_out_err t slot opts with ⟨h1, _⟩ | ⟨_, h2⟩
  · exact Or.inl h1
  · exact Or.inr h2

/-- C3: whenever the builder succeeds, the positional parameter list is
exactly `[slot, optionsObject]`; the object always holds an `encoding`
key; it holds `transactionDetails`, `rewards`, `commitment` exactly when
the corresponding option field was supplied non-empty/non-nil; and for
nil or all-empty options the object is exactly the single default
`encoding: json` entry. -/
theorem buildParams_positional_shape (slot : Nat)
    (opts : Option GetBlockOpts) (obj : M)
    (h : buildObj opts = Except.ok obj) :
    buildParams slot opts = Except.ok [Param.nat slot, Param.obj obj] ∧
    (lookupM obj "encoding").isSome = true ∧
    ((lookupM obj "transactionDetails").isSome = true ↔
      ∃ o, opts = some o ∧ o.TransactionDetails ≠ "") ∧
    ((lookupM obj "rewards").isSome = true ↔
      ∃ o, opts = some o ∧ o.Rewards ≠ none) ∧
    ((lookupM obj "commitment").isSome = true ↔
      ∃ o, opts = some o ∧ o.Commitment ≠ "") ∧
    ((opts = none ∨ ∃ o, opts = some o ∧ o.Encoding = "" ∧
        o.TransactionDetails = "" ∧ o.Rewards = none ∧
        o.Commitment = "") →
      obj = [("encoding", JVal.str EncodingJSON)]) := by
  have hps : buildParams slot opts
      = Except.ok [Param.nat slot, Param.obj obj] := by
    simp [buildParams, h]
  rcases opts with _ | o
  · rw [buildObj_none_eq] at h
    injection h with h
    subst h
    refine ⟨hps, ?_, ?_, ?_, ?_, ?_⟩ <;> simp [lookupM]
  · rw [buildObj_some_eq] at h
    by_cases hcond : o.Encoding ≠ "" ∧ o.Encoding ∉ validEncodings
    · rw [if_pos hcond] at h
      exact absurd h (by simp)
    · rw [if_neg hcond] at h
      injection h with h
      subst h
      refine ⟨hps, ?_, ?_, ?_, ?_, ?_⟩
      · simp [lookupM_objOf_encoding]
      · by_cases ht : o.TransactionDetails = "" <;>
          simp [lookupM_objOf_transactionDetails, ht]
      · rcases hr : o.Rewards with _ | b <;>
          simp [lookupM_objOf_rewards, hr]
      · by_cases hc : o.Commitment = "" <;>
          simp [lookupM_objOf_commitment, hc]
      · rintro (h' | ⟨o', ho', he, ht, hr, hc⟩)
        · exact absurd h' (by simp)
        · rw [Option.some.injEq] at ho'
          subst ho'
          simp [objOf, he, ht, hr, hc]

/-- Witness for C3 at slot 5 with nil options: the parameters are
`[5, defaultObject]` and the object carries only the default
`encoding: json` key. -/
theorem buildParams_positional_shape_witness :
    buildObj none = Except.ok [("encoding", JVal.str EncodingJSON)] ∧
    (buildParams 5 none = Except.ok [Param.nat 5,
        Param.obj [("encoding", JVal.str EncodingJSON)]] ∧
      (lookupM [("encoding", JVal.str EncodingJSON)]
        "encoding").isSome = true ∧
      ((lookupM [("encoding", JVal.str EncodingJSON)]
          "transactionDetails").isSome = true ↔
        ∃ o, (none : Option GetBlockOpts) = some o ∧
          o.TransactionDetails ≠ "") ∧
      ((lookupM [("encoding", JVal.str EncodingJSON)]
          "rewards").isSome = true ↔
        ∃ o, (none : Option GetBlockOpts) = some o ∧
          o.Rewards ≠ none) ∧
      ((lookupM [("encoding", JVal.str EncodingJSON)]
          "commitment").isSome = true ↔
        ∃ o, (none : Option GetBlockOpts) = some o ∧
          o.Commitment ≠ "") ∧
      (((none : Option GetBlockOpts) = none ∨
          ∃ o, (none : Option GetBlockOpts) = some o ∧
            o.Encoding = "" ∧ o.TransactionDetails = "" ∧
            o.Rewards = none ∧ o.Commitment = "") →
        [("encoding", JVal.str EncodingJSON)] =
          [("encoding", JVal.str EncodingJSON)])) :=
  ⟨rfl, buildParams_positional_shape 5 none
    [("encoding", JVal.str EncodingJSON)] rfl⟩

/-- C4: for every valid encoding supplied in the options bundle, the
builder succeeds and the emitted object carries exactly that value under
the `encoding` key, overriding the default. -/
theorem buildObj_valid_encoding_override (o : GetBlockOpts)
    (h : o.Encoding ∈ validEncodings) :
    ∃ obj, buildObj (some o) = Except.ok obj ∧
      lookupM obj "encoding" = some (JVal.str o.Encoding) := by
  have hne : o.Encoding ≠ "" := by
    intro he
    rw [he] at h
    exact absurd h (by decide)
  refine ⟨objOf o, ?_, ?_⟩
  · rw [buildObj_some_eq, if_neg]
    rintro ⟨_, hn⟩
    exact hn h
  · rw [lookupM_objOf_encoding, if_neg hne]

/-- Witness for C4 at encoding `base58`: applying the theorem at the
concrete bundle yields the override under the `encoding` key. -/
theorem buildObj_valid_encoding_override_witness :
    (("base58" : EncodingType) ∈ validEncodings) ∧
    ∃ obj,
      buildObj (some ({ Encoding := "base58" } : GetBlockOpts)) =
          Except.ok obj ∧
        lookupM obj "encoding" = some (JVal.str "base58") :=
  ⟨by decide,
    buildObj_valid_encoding_override { Encoding := "base58" } (by decide)⟩

/-- C5: the three error outcomes are mutually distinguishable: an
invalid encoding yields the `unsupportedEncoding` value, a transport
failure yields `transportErr` with the original payload, an empty
decoded result yields `notConfirmed`, and these three constructors are
pairwise distinct values. -/
theorem getBlock_error_taxonomy :
    (∀ (t : Transport) (slot : Nat) (o : GetBlockOpts),
      o.Encoding ≠ "" → o.Encoding ∉ validEncodings →
      (getBlockWithOpts t slot (some o)).err =
        some (GoError.unsupportedEncoding o.Encoding)) ∧
    (∀ (t : Transport) (slot : Nat) (opts : Option GetBlockOpts)
      (ps : List Param) (e : TransportError),
      buildParams slot opts = Except.ok ps →
      t ⟨"getBlock", ps⟩ = Except.error e →
      (getBlockWithOpts t slot opts).err =
        some (GoError.transportErr e)) ∧
    (∀ (t : Transport) (slot : Nat) (opts : Option GetBlockOpts)
      (ps : List Param),
      buildParams slot opts = Except.ok ps →
      t ⟨"getBlock", ps⟩ = Except.ok none →
      (getBlockWithOpts t slot opts).err = some GoError.notConfirmed) ∧
    (∀ (enc : EncodingType) (e : TransportError),
      GoError.unsupportedEncoding enc ≠ GoError.transportErr e ∧
      GoError.unsupportedEncoding enc ≠ GoError.notConfirmed ∧
      GoError.transportErr e ≠ GoError.notConfirmed) := by
  refine ⟨?_, ?_, ?_, ?_⟩
  · intro t slot o h1 h2
    have hb : buildObj (some o)
        = Except.error (GoError.unsupportedEncoding o.Encoding) := by
      rw [buildObj_some_eq, if_pos ⟨h1, h2⟩]
    simp [getBlockWithOpts, buildParams, hb]
  · intro t slot opts ps e h1 h2
    simp [getBlockWithOpts, h1, h2]
  · intro t slot opts ps h1 h2
    simp [getBlockWithOpts, h1, h2]
  · intro enc e
    exact ⟨by simp, by simp, by simp⟩

/-- Witness for C5: the three scenarios realized at concrete inputs
produce the three distinct error values. -/
theorem getBlock_error_taxonomy_witness :
    (getBlockWithOpts transportOkBlock 10
        (some { Encoding := "xml" })).err =
      some (GoError.unsupportedEncoding "xml") ∧
    (getBlockWithOpts transportFail 1 none).err =
      some (GoError.transportErr "connection refused") ∧
    (getBlockWithOpts transportOkNone 1 none).err =
      some GoError.notConfirmed :=
  ⟨getBlock_error_taxonomy.1 transportOkBlock 10 { Encoding := "xml" }
      (by decide) (by decide),
    getBlock_error_taxonomy.2.1 transportFail 1 none
      [Param.nat 1, Param.obj [("encoding", JVal.str "json")]]
      "connection refused" rfl rfl,
    getBlock_error_taxonomy.2.2.1 transportOkNone 1 none
      [Param.nat 1, Param.obj [("encoding", JVal.str "json")]] rfl rfl⟩

/-- C7: for any (even invalid) commitment and transactionDetails values,
the builder performs no local validation: with encoding unset or valid
it succeeds regardless of those fields, and each non-empty value is
passed through to the emitted object unchanged. -/
theorem buildObj_no_local_validation_passthrough (o : GetBlockOpts)
    (he : o.Encoding = "" ∨ o.Encoding ∈ validEncodings) :
    ∃ obj, buildObj (some o) = Except.ok obj ∧
      (o.Commitment ≠ "" →
        lookupM obj "commitment" = some (JVal.str o.Commitment)) ∧
      (o.TransactionDetails ≠ "" →
        lookupM obj "transactionDetails" =
          some (JVal.str o.TransactionDetails)) := by
  refine ⟨objOf o, ?_, ?_, ?_⟩
  · rw [buildObj_some_eq, if_neg]
    rintro ⟨h1, h2⟩
    rcases he with he | he
    · exact h1 he
    · exact h2 he
  · intro hc
    rw [lookupM_objOf_commitment, if_neg hc]
  · intro ht
    rw [lookupM_objOf_transactionDetails, if_neg ht]

/-- Witness for C7: garbage `commitment` and `transactionDetails`
strings are not rejected and appear verbatim in the object. -/
theorem buildObj_no_local_validation_passthrough_witness :
    (passthroughOpts.Encoding = "" ∨
      passthroughOpts.Encoding ∈ validEncodings) ∧
    ∃ obj, buildObj (some passthroughOpts) = Except.ok obj ∧
      (passthroughOpts.Commitment ≠ "" →
        lookupM obj "commitment" =
          some (JVal.str passthroughOpts.Commitment)) ∧
      (passthroughOpts.TransactionDetails ≠ "" →
        lookupM obj "transactionDetails" =
          some (JVal.str passthroughOpts.TransactionDetails)) :=
  ⟨Or.inl rfl,
    buildObj_no_local_validation_passthrough passthroughOpts (Or.inl rfl)⟩

/-- C8: in a successfully built object, `Rewards = some false` puts the
`rewards` key with value `false` into the object, while `Rewards = none`
omits the key entirely — explicit `false` is distinguishable from
unset. -/
theorem buildObj_rewards_false_vs_unset (o : GetBlockOpts) (obj : M)
    (h : buildObj (some o) = Except.ok obj) :
    (o.Rewards = some false →
      lookupM obj "rewards" = some (JVal.bool false)) ∧
    (o.Rewards = none → lookupM obj "rewards" = none) := by
  rw [buildObj_some_eq] at h
  by_cases hcond : o.Encoding ≠ "" ∧ o.Encoding ∉ validEncodings
  · rw [if_pos hcond] at h
    exact absurd h (by simp)
  · rw [if_neg hcond] at h
    injection h with h
    subst h
    constructor
    · intro hr
      rw [lookupM_objOf_rewards, hr]
      rfl
    · intro hr
      rw [lookupM_objOf_rewards, hr]
      rfl

/-- Witness for C8: with `Rewards = some false` the emitted object is
exactly `encoding: json, rewards: false`, and the `rewards` key holds
`false`. -/
theorem buildObj_rewards_false_vs_unset_witness :
    buildObj (some rewardsFalseOpts) =
      Except.ok [("encoding", JVal.str "json"),
        ("rewards", JVal.bool false)] ∧
    lookupM [("encoding", JVal.str "json"),
      ("rewards", JVal.bool false)] "rewards" =
      some (JVal.bool false) :=
  ⟨rfl,
    (buildObj_rewards_false_vs_unset rewardsFalseOpts
      [("encoding", JVal.str "json"), ("rewards", JVal.bool false)]
      rfl).1 rfl⟩

end SolanaGetBlock
